import Mathlib

/-!
Shallow embedding of the blogging-platform backend (NestJS + TypeORM).

The repository layer builds SQL WHERE clauses through TypeORM's
SelectQueryBuilder.  TypeORM keeps the conditions added by
where / andWhere / orWhere in a flat list and joins them with the
literal AND / OR keywords, without inserting parentheses around the
previously accumulated conditions; only a Brackets argument produces a
parenthesized group.  SQL gives AND a higher precedence than OR, so the
resulting clause is a disjunction of maximal AND-runs.  The model below
mirrors that: a clause is a list of (connector, predicate) pairs and its
evaluation splits the list at OR connectors into conjunct groups.
-/

/-- Connector attached to a condition appended by the query builder:
conj models andWhere, disj models orWhere.  The connector of the first
condition in a clause is irrelevant (TypeORM prints no keyword before
the first condition). -/
inductive WhereOp where
  | conj
  | disj
deriving Repr, DecidableEq

/-- A WHERE clause over rows of type ρ, as accumulated by TypeORM:
each entry is one condition together with the connector that joins it
to the text already emitted. -/
abbrev WhereClause (ρ : Type) : Type := List (WhereOp × (ρ → Bool))

/-- Evaluate the tail of a clause with SQL precedence (AND binds tighter
than OR): acc is the value of the disjunction already closed off, cur is
the value of the AND-group currently being extended. -/
def evalWhereAux {ρ : Type} (r : ρ) : List (WhereOp × (ρ → Bool)) → Bool → Bool → Bool
  | [], acc, cur => acc || cur
  | (WhereOp.conj, p) :: rest, acc, cur => evalWhereAux r rest acc (cur && p r)
  | (WhereOp.disj, p) :: rest, acc, cur => evalWhereAux r rest (acc || cur) (p r)

/-- Evaluate a WHERE clause on a row with SQL precedence.  An empty
clause (no conditions ever added) matches every row. -/
def evalWhere {ρ : Type} (ws : WhereClause ρ) (r : ρ) : Bool :=
  match ws with
  | [] => true
  | (_, p) :: rest => evalWhereAux r rest false (p r)

/-- The part of TypeORM's SelectQueryBuilder state that decides which
rows are returned: the accumulated WHERE conditions. -/
structure QB (ρ : Type) where
  wheres : WhereClause ρ

/-- createQueryBuilder: starts with no conditions. -/
def QB.create {ρ : Type} : QB ρ := ⟨[]⟩

/-- SelectQueryBuilder.where: replaces all previously set conditions. -/
def QB.whereQ {ρ : Type} (_qb : QB ρ) (p : ρ → Bool) : QB ρ :=
  ⟨[(WhereOp.conj, p)]⟩

/-- SelectQueryBuilder.andWhere: appends a condition joined by AND. -/
def QB.andWhere {ρ : Type} (qb : QB ρ) (p : ρ → Bool) : QB ρ :=
  ⟨qb.wheres ++ [(WhereOp.conj, p)]⟩

/-- SelectQueryBuilder.orWhere: appends a condition joined by OR. -/
def QB.orWhere {ρ : Type} (qb : QB ρ) (p : ρ → Bool) : QB ρ :=
  ⟨qb.wheres ++ [(WhereOp.disj, p)]⟩

/-- andWhere with a new Brackets(qb2) argument where qb2 receives a
sequence of orWhere calls: appends one parenthesized disjunction joined
by AND. -/
def QB.andWhereBrackets {ρ : Type} (qb : QB ρ) (ps : List (ρ → Bool)) : QB ρ :=
  ⟨qb.wheres ++ [(WhereOp.conj, fun r => ps.any (fun p => p r))]⟩

/-- SQL LIKE pattern matching on character lists: the wildcard percent
matches any sequence of characters and the wildcard underscore matches
exactly one character; every other pattern character matches itself.
The percent case is expressed through suffixes of the subject so that
the recursion is structural on the pattern. -/
def likeMatch : List Char → List Char → Bool
  | [], s => s.isEmpty
  | p :: ps, s =>
    if p = '%' then
      s.tails.any (fun t => likeMatch ps t)
    else if p = '_' then
      match s with
      | [] => false
      | _ :: s2 => likeMatch ps s2
    else
      match s with
      | [] => false
      | d :: s2 => (p == d) && likeMatch ps s2

/-- s LIKE pat, on strings. -/
def sqlLike (s pat : String) : Bool :=
  likeMatch pat.data s.data

/-- The LIKE pattern the repositories build for a keyword: the template
string consisting of the keyword followed by a percent sign, with the
keyword inserted verbatim (no escaping of LIKE wildcards). -/
def kwPattern (keyword : String) : String :=
  keyword ++ "%"

/-- k is a literal starting segment of s (used to state the spec's
prefix-match rule). -/
def strStartsWith (k s : String) : Bool :=
  k.data.isPrefixOf s.data

/-- A keyword is wildcard-free when it contains neither percent nor
underscore, the two SQL LIKE metacharacters. -/
def wildcardFree (k : String) : Bool :=
  k.data.all (fun c => !(c == '%' || c == '_'))

/-- ORDER BY key DESC: sorts rows so that larger keys come first.
Insertion sort is used (executable and stable); ties keep their
relative order, which the source leaves to the storage engine. -/
def sortByCreatedAtDesc {ρ : Type} (key : ρ → Nat) (l : List ρ) : List ρ :=
  List.insertionSort (fun a b => key b ≤ key a) l

/-- The where / orWhere loop shared by every getQueryBuilder helper:
for each searchable field, the first gets where and the rest get
orWhere, each comparing the field (read as text) against the keyword
pattern. -/
def addKeywordLoop {ρ : Type} (qb : QB ρ) (getF : ρ → String → String)
    (keyword : String) : List String → QB ρ
  | [] => qb
  | f :: rest =>
    rest.foldl
      (fun (acc : QB ρ) f2 => acc.orWhere (fun r => sqlLike (getF r f2) (kwPattern keyword)))
      (qb.whereQ (fun r => sqlLike (getF r f) (kwPattern keyword)))

section Tag

/-- A row of the tags table (TagEntity): id, name, auditing timestamp.
Timestamps are modelled as naturals. -/
structure TagRow where
  id : Nat
  name : String
  createdAt : Nat
deriving Repr, DecidableEq

/-- Read a tag column as text, as the database would for a LIKE
comparison against the named column. -/
def TagRow.getField (r : TagRow) : String → String
  | "id" => toString r.id
  | "name" => r.name
  | _ => ""

/-- TagRepository.getQueryBuilder: if a keyword is supplied (JS
truthiness: a missing or empty keyword adds nothing), add one LIKE
condition per field, the first via where and the rest via orWhere.
Tags are unowned: no ownership condition is added. -/
def tagGetQueryBuilder (fields : List String) (keyword : Option String) : QB TagRow :=
  let qb : QB TagRow := QB.create
  match keyword with
  | none => qb
  | some kw => if kw = "" then qb else addKeywordLoop qb TagRow.getField kw fields

/-- The row predicate of the tag list query (fields ['name']). -/
def tagListMatches (searchTerm : Option String) : TagRow → Bool :=
  evalWhere (tagGetQueryBuilder ["name"] searchTerm).wheres

/-- TagRepository.getAll: filter by the query builder's conditions,
order by createdAt descending, apply skip and take; getManyAndCount
returns the windowed rows together with the unwindowed match count. -/
def tagGetAll (db : List TagRow) (skip take : Nat) (searchTerm : Option String) :
    List TagRow × Nat :=
  let filtered := db.filter (tagListMatches searchTerm)
  let ordered := sortByCreatedAtDesc TagRow.createdAt filtered
  ((ordered.drop skip).take take, filtered.length)

/-- TagRepository.findAllDropdown: same query builder over the
caller-supplied fields, at most 5 rows, no ordering, no count. -/
def tagFindAllDropdown (db : List TagRow) (fields : List String)
    (keyword : Option String) : List TagRow :=
  (db.filter (evalWhere (tagGetQueryBuilder fields keyword).wheres)).take 5

end Tag

section Blog

/-- A row of the blogs table (BlogEntity) together with its author
foreign key. -/
structure BlogRow where
  id : Nat
  title : String
  content : String
  published : Bool
  createdAt : Nat
  authorId : Nat
deriving Repr, DecidableEq

/-- Read a blog column as text for a LIKE comparison; the boolean
published column reads as its stored numeric form. -/
def BlogRow.getField (r : BlogRow) : String → String
  | "id" => toString r.id
  | "title" => r.title
  | "content" => r.content
  | "published" => if r.published then "1" else "0"
  | _ => ""

/-- BlogRepository.getQueryBuilder: the keyword LIKE conditions are
added first (where / orWhere per field), then the ownership condition
blog.author.id = userId is appended with andWhere.  No Brackets are
used, so in the generated SQL the ownership condition is ANDed only
onto the last LIKE condition. -/
def blogGetQueryBuilder (userId : Nat) (fields : List String)
    (keyword : Option String) : QB BlogRow :=
  let qb : QB BlogRow := QB.create
  let qb :=
    match keyword with
    | none => qb
    | some kw => if kw = "" then qb else addKeywordLoop qb BlogRow.getField kw fields
  qb.andWhere (fun r => r.authorId == userId)

/-- The row predicate of the blog list query
(fields ['title', 'content', 'published']). -/
def blogListMatches (userId : Nat) (searchTerm : Option String) : BlogRow → Bool :=
  evalWhere (blogGetQueryBuilder userId ["title", "content", "published"] searchTerm).wheres

/-- BlogRepository.getAll: filter, order by createdAt descending,
window by skip/take, and return the unwindowed count. -/
def blogGetAll (db : List BlogRow) (userId skip take : Nat)
    (searchTerm : Option String) : List BlogRow × Nat :=
  let filtered := db.filter (blogListMatches userId searchTerm)
  let ordered := sortByCreatedAtDesc BlogRow.createdAt filtered
  ((ordered.drop skip).take take, filtered.length)

/-- BlogRepository.findAllDropdown: the same query builder over the
caller-supplied fields, capped at 5 rows. -/
def blogFindAllDropdown (db : List BlogRow) (userId : Nat) (fields : List String)
    (keyword : Option String) : List BlogRow :=
  (db.filter (evalWhere (blogGetQueryBuilder userId fields keyword).wheres)).take 5

/-- BlogRepository.findById: findOne with where { id, author: { id:
userId } } - both equalities must hold, or the lookup yields nothing. -/
def blogFindById (db : List BlogRow) (userId id : Nat) : Option BlogRow :=
  db.find? (fun b => b.id == id && b.authorId == userId)

end Blog

section Draft

/-- A row of the drafts table (DraftEntity) with its blog and createdBy
foreign keys. -/
structure DraftRow where
  id : Nat
  content : String
  createdAt : Nat
  blogId : Nat
  createdById : Nat
deriving Repr, DecidableEq

/-- Read a draft column as text for a LIKE comparison. -/
def DraftRow.getField (r : DraftRow) : String → String
  | "id" => toString r.id
  | "content" => r.content
  | _ => ""

/-- DraftRepository.findById: findOne with
where { id, createdBy: { id: userId } }. -/
def draftFindById (db : List DraftRow) (userId id : Nat) : Option DraftRow :=
  db.find? (fun d => d.id == id && d.createdById == userId)

/-- DraftRepository.getDraftsByBlogId: andWhere on the owner, andWhere
on the blog id, and, when a search term is supplied, an andWhere over a
Brackets group holding the per-field orWhere LIKE conditions
(fields = ['content']); then order by createdAt descending, window by
skip/take, and count without the window. -/
def draftGetDraftsByBlogId (db : List DraftRow) (userId blogId skip take : Nat)
    (searchTerm : Option String) : List DraftRow × Nat :=
  let fields := ["content"]
  let qb : QB DraftRow := QB.create
  let qb := qb.andWhere (fun r => r.createdById == userId)
  let qb := qb.andWhere (fun r => r.blogId == blogId)
  let qb :=
    match searchTerm with
    | none => qb
    | some kw =>
      if kw = "" then qb
      else qb.andWhereBrackets
        (fields.map (fun f => fun r => sqlLike (DraftRow.getField r f) (kwPattern kw)))
  let filtered := db.filter (evalWhere qb.wheres)
  let ordered := sortByCreatedAtDesc DraftRow.createdAt filtered
  ((ordered.drop skip).take take, filtered.length)

end Draft

section BlogTag

/-- A row of the blog_tags junction table (BlogTagEntity). -/
structure BlogTagRow where
  id : Nat
  blogId : Nat
  tagId : Nat
  createdAt : Nat
deriving Repr, DecidableEq

/-- innerJoin('blogTag.tag', 'tag'): each junction row paired with the
tag rows whose id equals its tag foreign key. -/
def blogTagJoinTags (bts : List BlogTagRow) (tags : List TagRow) :
    List (BlogTagRow × TagRow) :=
  bts.foldr
    (fun bt acc => ((tags.filter (fun t => t.id == bt.tagId)).map (fun t => (bt, t))) ++ acc)
    []

/-- innerJoin('blogTag.blog', 'blog'): each junction row paired with the
blog rows whose id equals its blog foreign key. -/
def blogTagJoinBlogs (bts : List BlogTagRow) (blogs : List BlogRow) :
    List (BlogTagRow × BlogRow) :=
  bts.foldr
    (fun bt acc => ((blogs.filter (fun b => b.id == bt.blogId)).map (fun b => (bt, b))) ++ acc)
    []

/-- BlogTagRepository.getBlogTagsByBlogId: andWhere on the blog id,
inner join to the tag, and, when a search term is supplied, an andWhere
over a Brackets group holding orWhere tag.name LIKE (the extra fields
list is empty); then order by createdAt descending, window, count. -/
def blogTagGetByBlogId (bts : List BlogTagRow) (tags : List TagRow)
    (blogId skip take : Nat) (searchTerm : Option String) :
    List (BlogTagRow × TagRow) × Nat :=
  let qb : QB (BlogTagRow × TagRow) := QB.create
  let qb := qb.andWhere (fun r => r.1.blogId == blogId)
  let qb :=
    match searchTerm with
    | none => qb
    | some kw =>
      if kw = "" then qb
      else qb.andWhereBrackets [fun r => sqlLike r.2.name (kwPattern kw)]
  let joined := blogTagJoinTags bts tags
  let filtered := joined.filter (evalWhere qb.wheres)
  let ordered := sortByCreatedAtDesc (fun r => r.1.createdAt) filtered
  ((ordered.drop skip).take take, filtered.length)

/-- BlogTagRepository.getBlogTagsByTagId: andWhere on the tag id, inner
join to the blog, and, when a search term is supplied, an andWhere over
a Brackets group holding orWhere blog.title LIKE; then order by
createdAt descending, window, count. -/
def blogTagGetByTagId (bts : List BlogTagRow) (blogs : List BlogRow)
    (tagId skip take : Nat) (searchTerm : Option String) :
    List (BlogTagRow × BlogRow) × Nat :=
  let qb : QB (BlogTagRow × BlogRow) := QB.create
  let qb := qb.andWhere (fun r => r.1.tagId == tagId)
  let qb :=
    match searchTerm with
    | none => qb
    | some kw =>
      if kw = "" then qb
      else qb.andWhereBrackets [fun r => sqlLike r.2.title (kwPattern kw)]
  let joined := blogTagJoinBlogs bts blogs
  let filtered := joined.filter (evalWhere qb.wheres)
  let ordered := sortByCreatedAtDesc (fun r => r.1.createdAt) filtered
  ((ordered.drop skip).take take, filtered.length)

end BlogTag

section Services

/-- An error raised inside a service's try block: either the service's
own NotFoundException (it carries a message; reading its code property
yields nothing), or a fault propagated from repository access carrying
the driver's message and code. -/
inductive ServiceErr where
  | notFound (message : String)
  | fault (message : String) (code : Option String)
deriving Repr, DecidableEq

/-- Reading e.message on a caught service error. -/
def ServiceErr.message : ServiceErr → String
  | .notFound m => m
  | .fault m _ => m

/-- Reading e.code on a caught service error: a NotFoundException has
no code property. -/
def ServiceErr.code : ServiceErr → Option String
  | .notFound _ => none
  | .fault _ c => c

/-- The HTTP exceptions a service could let escape to its caller. -/
inductive HttpErr where
  | notFound (message : String)
  | badRequest (message : String) (code : Option String)
deriving Repr, DecidableEq

/-- Reading e.message on a caught HTTP exception. -/
def HttpErr.message : HttpErr → String
  | .notFound m => m
  | .badRequest m _ => m

/-- The catch clause every service method ends with:
throw new BadRequestException(e.message, e.code). -/
def svcWrap {α : Type} : Except ServiceErr α → Except HttpErr α
  | .ok a => .ok a
  | .error e => .error (.badRequest e.message e.code)

/-- The same catch clause applied to a caught HttpException (as happens
when updateBlog re-catches what getBlogById threw): the message is
carried over, and reading the code property of an HttpException yields
nothing. -/
def catchWrapHttp (e : HttpErr) : HttpErr :=
  .badRequest e.message none

/-- A fault from repository access (driver error): message plus code. -/
structure RepoFault where
  message : String
  code : Option String
deriving Repr, DecidableEq

/-- Body of TagService.getTagById before the catch clause, over the
outcome of the repository access: a missing record raises
NotFoundException('TagEntity not found'), a repository fault
propagates. -/
def tagGetTagByIdInner (repoRes : Except RepoFault (Option TagRow)) :
    Except ServiceErr TagRow :=
  match repoRes with
  | .error f => .error (.fault f.message f.code)
  | .ok none => .error (.notFound "TagEntity not found")
  | .ok (some t) => .ok t

/-- TagService.getTagById: the body wrapped by the catch clause. -/
def tagGetTagById (repoRes : Except RepoFault (Option TagRow)) :
    Except HttpErr TagRow :=
  svcWrap (tagGetTagByIdInner repoRes)

/-- Body of BlogService.getBlogById before the catch clause. -/
def blogGetBlogByIdInner (db : List BlogRow) (userId id : Nat) :
    Except ServiceErr BlogRow :=
  match blogFindById db userId id with
  | none => .error (.notFound "BlogEntity not found")
  | some b => .ok b

/-- BlogService.getBlogById: scoped lookup, NotFoundException on a
missing record, all wrapped by the catch clause into a
BadRequestException. -/
def blogGetBlogById (db : List BlogRow) (userId id : Nat) : Except HttpErr BlogRow :=
  svcWrap (blogGetBlogByIdInner db userId id)

/-- Body of DraftService.getDraftById before the catch clause. -/
def draftGetDraftByIdInner (db : List DraftRow) (userId id : Nat) :
    Except ServiceErr DraftRow :=
  match draftFindById db userId id with
  | none => .error (.notFound "DraftEntity not found")
  | some d => .ok d

/-- DraftService.getDraftById. -/
def draftGetDraftById (db : List DraftRow) (userId id : Nat) : Except HttpErr DraftRow :=
  svcWrap (draftGetDraftByIdInner db userId id)

/-- UpdateBlogDto: every field optional. -/
structure UpdateBlogDto where
  title : Option String
  content : Option String
  published : Option Bool
deriving Repr, DecidableEq

/-- UpdateDraftDto: every field optional. -/
structure UpdateDraftDto where
  blogId : Option Nat
  content : Option String
deriving Repr, DecidableEq

/-- repository.merge(blog, updateData) for updateData built by
BlogService.updateBlog: TypeORM's plain-object transformer copies a
column only when the supplied value is defined, so fields the caller
left out keep their stored value; the author relation is always merged
with { id: userId }. -/
def mergeBlog (b : BlogRow) (userId : Nat) (dto : UpdateBlogDto) : BlogRow :=
  { b with
    title := dto.title.getD b.title
    content := dto.content.getD b.content
    published := dto.published.getD b.published
    authorId := userId }

/-- repository.merge(draft, updateData) for updateData built by
DraftService.updateDraft: blog: { id: dto.blogId } merges recursively,
so an absent blogId leaves the stored blog relation untouched; the
createdBy relation is always merged with { id: userId }. -/
def mergeDraft (d : DraftRow) (userId : Nat) (dto : UpdateDraftDto) : DraftRow :=
  { d with
    content := dto.content.getD d.content
    blogId := dto.blogId.getD d.blogId
    createdById := userId }

/-- repository.save of an entity that already has an id: the stored row
with that id is replaced. -/
def saveRow {ρ : Type} (idOf : ρ → Nat) (db : List ρ) (r : ρ) : List ρ :=
  db.map (fun x => if idOf x == idOf r then r else x)

/-- BlogService.updateBlog: scoped existence check through getBlogById
(whose BadRequestException is re-caught and re-wrapped by updateBlog's
own catch clause), then merge, then save.  Returns the new table state
together with the saved entity. -/
def blogUpdateBlog (db : List BlogRow) (userId id : Nat) (dto : UpdateBlogDto) :
    Except HttpErr (List BlogRow × BlogRow) :=
  match blogGetBlogById db userId id with
  | .error e => .error (catchWrapHttp e)
  | .ok blog =>
    let merged := mergeBlog blog userId dto
    .ok (saveRow BlogRow.id db merged, merged)

/-- DraftService.updateDraft: same shape as updateBlog. -/
def draftUpdateDraft (db : List DraftRow) (userId id : Nat) (dto : UpdateDraftDto) :
    Except HttpErr (List DraftRow × DraftRow) :=
  match draftGetDraftById db userId id with
  | .error e => .error (catchWrapHttp e)
  | .ok draft =>
    let merged := mergeDraft draft userId dto
    .ok (saveRow DraftRow.id db merged, merged)

end Services

section Controller

/-- A JavaScript number restricted to the values this controller can
produce from integral query parameters: an integer or NaN (the result
of coercing a non-numeric string with Number). -/
inductive JsNum where
  | num (n : Int)
  | nan
deriving Repr, DecidableEq

/-- Math.max(1, x): returns NaN when the argument is NaN. -/
def jsMax1 : JsNum → JsNum
  | .num n => .num (max 1 n)
  | .nan => .nan

/-- x - 1 on JavaScript numbers: NaN propagates. -/
def JsNum.subOne : JsNum → JsNum
  | .num n => .num (n - 1)
  | .nan => .nan

/-- Multiplication on JavaScript numbers: NaN propagates. -/
def JsNum.mulJ : JsNum → JsNum → JsNum
  | .num a, .num b => .num (a * b)
  | _, _ => .nan

/-- TagController.getAllTags parameter handling: page defaults to 1 and
limit to 10 when the query parameter is absent; a supplied parameter
arrives as its Number coercion (an integer, or NaN for a non-numeric
string); each is clamped with Math.max(1, ...); the service receives
skip = (pageNumber - 1) * itemsPerPage and take = itemsPerPage. -/
def getAllTagsPagination (page limit : Option JsNum) : JsNum × JsNum :=
  let pageNumber := jsMax1 (page.getD (.num 1))
  let itemsPerPage := jsMax1 (limit.getD (.num 10))
  let skip := pageNumber.subOne.mulJ itemsPerPage
  (skip, itemsPerPage)

end Controller

section Lemmas

/-- A lone percent wildcard matches every subject. -/
theorem likeMatch_percent_nil (s : List Char) : likeMatch ['%'] s = true := by
  show likeMatch ('%' :: []) s = true
  unfold likeMatch
  rw [if_pos rfl, List.any_eq_true]
  exact ⟨[], (List.mem_tails [] s).mpr (List.nil_suffix), rfl⟩

/-- For a wildcard-free keyword, matching against the pattern
keyword-then-percent is exactly the literal starting-segment test. -/
theorem likeMatch_append_percent (k : List Char)
    (hk : k.all (fun c => !(c == '%' || c == '_')) = true) (s : List Char) :
    likeMatch (k ++ ['%']) s = k.isPrefixOf s := by
  induction k generalizing s with
  | nil =>
    rw [List.nil_append, likeMatch_percent_nil]
    exact List.isPrefixOf_nil_left.symm
  | cons c k ih =>
    rw [List.all_cons, Bool.and_eq_true] at hk
    obtain ⟨hc, hk⟩ := hk
    have hc1 : ¬ (c = '%') := by
      intro h
      rw [h] at hc
      simp at hc
    have hc2 : ¬ (c = '_') := by
      intro h
      rw [h] at hc
      simp at hc
    cases s with
    | nil =>
      rw [List.cons_append]
      unfold likeMatch
      rw [if_neg hc1, if_neg hc2]
      simp [List.isPrefixOf]
    | cons d s =>
      rw [List.cons_append]
      unfold likeMatch
      rw [if_neg hc1, if_neg hc2]
      show ((c == d) && likeMatch (k ++ ['%']) s) = List.isPrefixOf (c :: k) (d :: s)
      rw [ih hk s]
      simp [List.isPrefixOf]

/-- A row surviving the filter-sort-window pipeline satisfies the
filter's predicate. -/
theorem mem_window_filter {ρ : Type} (key : ρ → Nat) (p : ρ → Bool) (db : List ρ)
    (sk tk : Nat) (r : ρ)
    (h : r ∈ ((sortByCreatedAtDesc key (db.filter p)).drop sk).take tk) :
    p r = true := by
  have h1 : r ∈ sortByCreatedAtDesc key (db.filter p) :=
    List.mem_of_mem_drop (List.mem_of_mem_take h)
  have h2 : r ∈ db.filter p := by
    unfold sortByCreatedAtDesc at h1
    exact (List.perm_insertionSort _ _).mem_iff.mp h1
  exact (List.mem_filter.mp h2).2

/-- Splitting the windowed pipeline at offset N: the two consecutive
windows concatenate to the first 2N ordered rows, and carry disjoint
id sets whenever the underlying table has no duplicate ids. -/
theorem pages_split {ρ : Type} (key idOf : ρ → Nat) (m : ρ → Bool) (db : List ρ)
    (N : Nat) (h : (db.map idOf).Nodup) :
    (sortByCreatedAtDesc key (db.filter m)).take N
        ++ ((sortByCreatedAtDesc key (db.filter m)).drop N).take N
      = (sortByCreatedAtDesc key (db.filter m)).take (2 * N)
    ∧ List.Disjoint (((sortByCreatedAtDesc key (db.filter m)).take N).map idOf)
        ((((sortByCreatedAtDesc key (db.filter m)).drop N).take N).map idOf) := by
  constructor
  · rw [two_mul, List.take_add]
  · have hnd : ((sortByCreatedAtDesc key (db.filter m)).map idOf).Nodup := by
      have h1 : List.Sublist ((db.filter m).map idOf) (db.map idOf) :=
        (List.filter_sublist db).map idOf
      have h2 : ((db.filter m).map idOf).Nodup := h.sublist h1
      have h3 : List.Perm ((sortByCreatedAtDesc key (db.filter m)).map idOf)
          ((db.filter m).map idOf) := (List.perm_insertionSort _ _).map idOf
      exact h3.nodup_iff.mpr h2
    have hd : List.Disjoint (((sortByCreatedAtDesc key (db.filter m)).map idOf).take N)
        (((sortByCreatedAtDesc key (db.filter m)).map idOf).drop N) :=
      List.disjoint_take_drop hnd (le_refl N)
    rw [List.map_take, List.map_take, List.map_drop]
    intro a ha hb
    exact hd ha (List.take_subset _ _ hb)

end Lemmas

section KeywordLemmas

/-- The orWhere fold over the remaining searchable fields appends one
OR-connected LIKE condition per field. -/
theorem keywordFold_wheres {ρ : Type} (getF : ρ → String → String) (kw : String)
    (l : List String) (qb : QB ρ) :
    (l.foldl
        (fun (acc : QB ρ) f2 => acc.orWhere (fun r => sqlLike (getF r f2) (kwPattern kw)))
        qb).wheres
      = qb.wheres
          ++ l.map (fun f2 => (WhereOp.disj, fun r => sqlLike (getF r f2) (kwPattern kw))) := by
  induction l generalizing qb with
  | nil => simp
  | cons f l ih =>
    rw [List.foldl_cons, ih]
    simp [QB.orWhere]

/-- Evaluating a run of OR-connected conditions accumulates a
disjunction. -/
theorem evalWhereAux_disj_map {ρ : Type} (r : ρ) (ps : List (ρ → Bool)) (acc cur : Bool) :
    evalWhereAux r (ps.map (fun p => (WhereOp.disj, p))) acc cur
      = (acc || (cur || ps.any (fun p => p r))) := by
  induction ps generalizing acc cur with
  | nil => simp [evalWhereAux]
  | cons p ps ih =>
    simp only [List.map_cons, evalWhereAux, ih, List.any_cons]
    cases acc <;> cases cur <;> simp

/-- Applying a mapped predicate list pointwise is the same as mapping
inside the disjunction. -/
theorem any_map_apply {α ρ : Type} (g : α → ρ → Bool) (l : List α) (r : ρ) :
    (l.map g).any (fun p => p r) = l.any (fun a => g a r) := by
  induction l with
  | nil => rfl
  | cons a l ih => simp [List.any_cons, ih]

/-- The clause built by the where / orWhere loop evaluates to the
disjunction of the per-field LIKE tests. -/
theorem addKeywordLoop_eval {ρ : Type} (getF : ρ → String → String) (kw : String)
    (f : String) (rest : List String) (r : ρ) :
    evalWhere (addKeywordLoop QB.create getF kw (f :: rest)).wheres r
      = (f :: rest).any (fun fd => sqlLike (getF r fd) (kwPattern kw)) := by
  show evalWhere
      ((f :: rest).tail.foldl
        (fun (acc : QB ρ) f2 => acc.orWhere (fun r => sqlLike (getF r f2) (kwPattern kw)))
        (QB.create.whereQ (fun r => sqlLike (getF r f) (kwPattern kw)))).wheres r = _
  rw [List.tail_cons, keywordFold_wheres]
  show evalWhere
      ((WhereOp.conj, fun r => sqlLike (getF r f) (kwPattern kw))
        :: rest.map (fun f2 => (WhereOp.disj, fun r => sqlLike (getF r f2) (kwPattern kw)))) r
      = _
  show evalWhereAux r
      (List.map (fun f2 => (WhereOp.disj, fun r => sqlLike (getF r f2) (kwPattern kw))) rest)
      false (sqlLike (getF r f) (kwPattern kw)) = _
  have : (fun f2 => ((WhereOp.disj : WhereOp),
        fun r => sqlLike (getF r f2) (kwPattern kw)))
      = (fun p => ((WhereOp.disj : WhereOp), p))
          ∘ (fun f2 => fun r => sqlLike (getF r f2) (kwPattern kw)) := rfl
  rw [this, ← List.map_map, evalWhereAux_disj_map, any_map_apply]
  simp

/-- For a wildcard-free keyword, the LIKE test against the
keyword-then-percent pattern is the literal starts-with test. -/
theorem sqlLike_kwPattern_eq_startsWith (kw : String) (hw : wildcardFree kw = true)
    (s : String) : sqlLike s (kwPattern kw) = strStartsWith kw s := by
  show likeMatch (kw ++ "%").data s.data = strStartsWith kw s
  rw [String.data_append]
  have h1 : ("%" : String).data = ['%'] := rfl
  rw [h1, likeMatch_append_percent kw.data hw s.data]
  rfl

/-- With a wildcard-free nonempty keyword and a nonempty field list,
the tag query builder's clause tests whether any searched field starts
with the keyword. -/
theorem tag_keyword_eval_eq_any (kw : String) (hw : wildcardFree kw = true)
    (hkw : kw ≠ "") (fields : List String) (hf : fields ≠ []) (r : TagRow) :
    evalWhere (tagGetQueryBuilder fields (some kw)).wheres r
      = fields.any (fun fd => strStartsWith kw (r.getField fd)) := by
  cases fields with
  | nil => exact absurd rfl hf
  | cons f rest =>
    show evalWhere
        (if kw = "" then QB.create
          else addKeywordLoop QB.create TagRow.getField kw (f :: rest)).wheres r = _
    rw [if_neg hkw, addKeywordLoop_eval]
    simp only [sqlLike_kwPattern_eq_startsWith kw hw]

end KeywordLemmas

/-- C1: the ownership constraint on the blog list query is appended
with a plain andWhere after the unbracketed orWhere chain of keyword
conditions, so in SQL it binds only to the last LIKE condition; a
keyword matching another user's title returns that row.  Evaluated at
the failing input: user 1 lists blogs with keyword Go while the table
holds one blog owned by user 2 titled Golang Basics — the row comes
back, although without the keyword the same query returns nothing. -/
theorem blog_getAll_keyword_ownership_leak :
    (blogGetAll [⟨2, "Golang Basics", "intro", true, 5, 2⟩] 1 0 10 (some "Go")).1
        = [⟨2, "Golang Basics", "intro", true, 5, 2⟩]
    ∧ (blogGetAll [⟨2, "Golang Basics", "intro", true, 5, 2⟩] 1 0 10 none).1 = []
    ∧ (2 : Nat) ≠ 1 := by decide

/-- C5 counterexample: with the keyword made of an underscore wildcard
followed by jango, the tag list query returns the tag named django,
although that name does not start with the literal keyword text — so
the claimed prefix rule fails for keywords holding LIKE wildcards. -/
theorem tag_keyword_nonwildcard_counterexample :
    (tagGetAll [⟨1, "django", 0⟩] 0 10 (some "_jango")).1 = [⟨1, "django", 0⟩]
    ∧ strStartsWith "_jango" "django" = false := by decide

/-- C5 (amended): for a supplied keyword free of the LIKE wildcards
percent and underscore (and a nonempty searched-field list), a row
matches the tag query exactly when some searched field, read as text,
starts with the keyword; consequently every row returned by the tag
list query has a name starting with the keyword. -/
theorem tag_keyword_prefix_rule_wildcardFree :
    (∀ (fields : List String) (kw : String) (r : TagRow),
        wildcardFree kw = true → kw ≠ "" → fields ≠ [] →
        evalWhere (tagGetQueryBuilder fields (some kw)).wheres r
          = fields.any (fun fd => strStartsWith kw (r.getField fd)))
  ∧ (∀ (db : List TagRow) (sk tk : Nat) (kw : String) (r : TagRow),
        wildcardFree kw = true → kw ≠ "" →
        r ∈ (tagGetAll db sk tk (some kw)).1 → strStartsWith kw r.name = true) := by
  constructor
  · intro fields kw r hw hkw hf
    exact tag_keyword_eval_eq_any kw hw hkw fields hf r
  · intro db sk tk kw r hw hkw hr
    simp only [tagGetAll] at hr
    have hp := mem_window_filter TagRow.createdAt _ db sk tk r hr
    unfold tagListMatches at hp
    rw [tag_keyword_eval_eq_any kw hw hkw ["name"] (by simp) r] at hp
    simp only [List.any_cons, List.any_nil, Bool.or_false] at hp
    simpa [TagRow.getField] using hp

/-- C5 witness: the amended rule applied at keyword Go over a table
holding the tag Golang Basics. -/
theorem tag_keyword_prefix_rule_wildcardFree_witness :
    strStartsWith "Go" "Golang Basics" = true :=
  tag_keyword_prefix_rule_wildcardFree.2 [⟨1, "Golang Basics", 0⟩] 0 10 "Go"
    ⟨1, "Golang Basics", 0⟩ (by decide) (by decide) (by decide)

/-- C6: the keyword is concatenated verbatim with a trailing percent
into the LIKE pattern, wildcards unescaped: keyword percent-go yields
the pattern percent-go-percent, and the search then returns the tag
named django, whose name does not start with the literal keyword. -/
theorem tag_like_pattern_verbatim_wildcards :
    kwPattern "%go" = "%go%"
    ∧ (tagGetAll [⟨7, "django", 3⟩] 0 10 (some "%go")).1 = [⟨7, "django", 3⟩]
    ∧ strStartsWith "%go" "django" = false := by decide

/-- C10: the dropdown queries cap their result at 5 rows, for every
table state, field list, keyword and matching-row count. -/
theorem dropdown_at_most_five :
    (∀ (db : List TagRow) (fields : List String) (kw : Option String),
        (tagFindAllDropdown db fields kw).length ≤ 5)
  ∧ (∀ (db : List BlogRow) (u : Nat) (fields : List String) (kw : Option String),
        (blogFindAllDropdown db u fields kw).length ≤ 5) := by
  constructor
  · intro db fields kw
    unfold tagFindAllDropdown
    exact List.length_take_le 5 _
  · intro db u fields kw
    unfold blogFindAllDropdown
    exact List.length_take_le 5 _

/-- C2: for the owner-scoped lookups, asking for an existing record
with the wrong owner id produces the very same outcome as asking for an
id that exists nowhere — the wrapped not-found error — for blogs and
drafts alike. -/
theorem getById_wrong_owner_eq_missing :
    (∀ (db : List BlogRow) (u i j : Nat),
        (∀ b ∈ db, b.id = i → b.authorId ≠ u) →
        (∀ b ∈ db, b.id ≠ j) →
        blogGetBlogById db u i = blogGetBlogById db u j
          ∧ blogGetBlogById db u i
              = Except.error (HttpErr.badRequest "BlogEntity not found" none))
  ∧ (∀ (db : List DraftRow) (u i j : Nat),
        (∀ d ∈ db, d.id = i → d.createdById ≠ u) →
        (∀ d ∈ db, d.id ≠ j) →
        draftGetDraftById db u i = draftGetDraftById db u j
          ∧ draftGetDraftById db u i
              = Except.error (HttpErr.badRequest "DraftEntity not found" none)) := by
  constructor
  · intro db u i j h1 h2
    have e1 : blogFindById db u i = none := by
      apply List.find?_eq_none.mpr
      intro b hb
      simp only [Bool.and_eq_true, beq_iff_eq, not_and]
      intro hid hau
      exact h1 b hb hid hau
    have e2 : blogFindById db u j = none := by
      apply List.find?_eq_none.mpr
      intro b hb
      simp only [Bool.and_eq_true, beq_iff_eq, not_and]
      intro hid _
      exact h2 b hb hid
    constructor
    · simp [blogGetBlogById, blogGetBlogByIdInner, e1, e2]
    · simp [blogGetBlogById, blogGetBlogByIdInner, e1, svcWrap,
        ServiceErr.message, ServiceErr.code]
  · intro db u i j h1 h2
    have e1 : draftFindById db u i = none := by
      apply List.find?_eq_none.mpr
      intro d hd
      simp only [Bool.and_eq_true, beq_iff_eq, not_and]
      intro hid hau
      exact h1 d hd hid hau
    have e2 : draftFindById db u j = none := by
      apply List.find?_eq_none.mpr
      intro d hd
      simp only [Bool.and_eq_true, beq_iff_eq, not_and]
      intro hid _
      exact h2 d hd hid
    constructor
    · simp [draftGetDraftById, draftGetDraftByIdInner, e1, e2]
    · simp [draftGetDraftById, draftGetDraftByIdInner, e1, svcWrap,
        ServiceErr.message, ServiceErr.code]

/-- C2 witness: a table holding one blog (id 1, owned by user 2);
caller 1 looking up id 1 behaves as looking up the absent id 9. -/
theorem getById_wrong_owner_eq_missing_witness :
    blogGetBlogById [⟨1, "t", "c", true, 0, 2⟩] 1 1
        = blogGetBlogById [⟨1, "t", "c", true, 0, 2⟩] 1 9
      ∧ blogGetBlogById [⟨1, "t", "c", true, 0, 2⟩] 1 1
        = Except.error (HttpErr.badRequest "BlogEntity not found" none) :=
  getById_wrong_owner_eq_missing.1 [⟨1, "t", "c", true, 0, 2⟩] 1 1 9
    (by decide) (by decide)

/-- C4: every error escaping the cited service lookups is the one
generic BadRequestException carrying the inner error's message and code
field: a repository fault passes its own message and code through, the
service's own NotFoundException is flattened into the same shape with
its message and an absent code, and no NotFoundException (nor any other
class) ever reaches the caller. -/
theorem service_error_translation_flattened :
    (∀ (repoRes : Except RepoFault (Option TagRow)) (e : HttpErr),
        tagGetTagById repoRes = Except.error e → ∃ m c, e = HttpErr.badRequest m c)
  ∧ (∀ f : RepoFault,
        tagGetTagById (Except.error f)
          = Except.error (HttpErr.badRequest f.message f.code))
  ∧ tagGetTagById (Except.ok none)
      = Except.error (HttpErr.badRequest "TagEntity not found" none)
  ∧ (∀ t : TagRow, tagGetTagById (Except.ok (some t)) = Except.ok t)
  ∧ (∀ (db : List BlogRow) (u i : Nat) (e : HttpErr),
        blogGetBlogById db u i = Except.error e → ∃ m c, e = HttpErr.badRequest m c) := by
  refine ⟨?_, fun f => rfl, rfl, fun t => rfl, ?_⟩
  · intro repoRes e h
    match repoRes with
    | Except.error f =>
      have h2 : (Except.error (HttpErr.badRequest f.message f.code) :
          Except HttpErr TagRow) = Except.error e := h
      exact ⟨f.message, f.code, (Except.error.inj h2).symm⟩
    | Except.ok none =>
      have h2 : (Except.error (HttpErr.badRequest "TagEntity not found" none) :
          Except HttpErr TagRow) = Except.error e := h
      exact ⟨"TagEntity not found", none, (Except.error.inj h2).symm⟩
    | Except.ok (some t) => simp [tagGetTagById, tagGetTagByIdInner, svcWrap] at h
  · intro db u i e h
    cases hf : blogFindById db u i with
    | none =>
      refine ⟨"BlogEntity not found", none, ?_⟩
      rw [blogGetBlogById, blogGetBlogByIdInner, hf] at h
      simp only [svcWrap, ServiceErr.message, ServiceErr.code] at h
      exact (Except.error.inj h).symm
    | some b =>
      rw [blogGetBlogById, blogGetBlogByIdInner, hf] at h
      simp [svcWrap] at h

/-- C4 witness: a repository fault with message boom and a driver code
surfaces as the generic client error with the same message and code. -/
theorem service_error_translation_flattened_witness :
    ∃ m c, HttpErr.badRequest "boom" (some "ER_DUP") = HttpErr.badRequest m c :=
  service_error_translation_flattened.1
    (Except.error ⟨"boom", some "ER_DUP"⟩) (HttpErr.badRequest "boom" (some "ER_DUP")) rfl

/-- C7 counterexample: a supplied limit whose Number coercion is NaN
(any non-numeric query string) escapes the clamp — Math.max(1, NaN) is
NaN — so the effective limit is not a number at least 1, contradicting
the claim's universal floor. -/
theorem pagination_nan_counterexample :
    ¬ ∃ n : Int, (getAllTagsPagination none (some JsNum.nan)).2 = JsNum.num n ∧ 1 ≤ n := by
  rintro ⟨n, h, -⟩
  simp [getAllTagsPagination, jsMax1] at h

/-- C7 (amended): when the query parameters are absent the controller
uses page 1 and limit 10 (hence skip 0, take 10); every supplied value
that coerces to a number is clamped to at least 1, the effective take
equals the supplied limit whenever that is at least 1 (so no upper
bound exists), and skip is (page - 1) * take; a supplied value whose
Number coercion is NaN yields NaN instead of a clamped value. -/
theorem pagination_params_amended :
    getAllTagsPagination none none = (JsNum.num 0, JsNum.num 10)
  ∧ (∀ p l : Int, ∃ pn tk sk : Int,
      getAllTagsPagination (some (JsNum.num p)) (some (JsNum.num l))
          = (JsNum.num sk, JsNum.num tk)
        ∧ pn = max 1 p ∧ 1 ≤ pn ∧ 1 ≤ tk ∧ sk = (pn - 1) * tk ∧ (1 ≤ l → tk = l))
  ∧ (∀ M : Int, ∃ lv : Int,
      (getAllTagsPagination none (some (JsNum.num lv))).2 = JsNum.num lv ∧ M < lv)
  ∧ (getAllTagsPagination (some JsNum.nan) none).1 = JsNum.nan
  ∧ (getAllTagsPagination none (some JsNum.nan)).2 = JsNum.nan := by
  refine ⟨rfl, ?_, ?_, rfl, rfl⟩
  · intro p l
    refine ⟨max 1 p, max 1 l, (max 1 p - 1) * max 1 l, ?_, rfl, le_max_left 1 p,
      le_max_left 1 l, rfl, fun hl => max_eq_right hl⟩
    rfl
  · intro M
    refine ⟨max (M + 1) 1, ?_, ?_⟩
    · show JsNum.num (max 1 (max (M + 1) 1)) = JsNum.num (max (M + 1) 1)
      rw [max_comm (M + 1) 1, ← max_assoc, max_self]
    · calc M < M + 1 := lt_add_one M
        _ ≤ max (M + 1) 1 := le_max_left _ _

/-- C7 witness: the unbounded-take clause applied at bound 100. -/
theorem pagination_params_amended_witness :
    ∃ lv : Int,
      (getAllTagsPagination none (some (JsNum.num lv))).2 = JsNum.num lv ∧ 100 < lv :=
  pagination_params_amended.2.2.1 100



/-- C9: in every junction by-parent-id query the parent-id equality is
a mandatory AND conjunct and the keyword disjunction sits inside a
bracketed group under that AND, so every returned row references the
given parent id, whatever the keyword: drafts by blog id carry that
blog id, blogTags by blog id carry that blog id, and blogTags by tag id
carry that tag id. -/
theorem byParentId_rows_reference_parent :
    (∀ (db : List DraftRow) (u blogId sk tk : Nat) (st : Option String) (r : DraftRow),
        r ∈ (draftGetDraftsByBlogId db u blogId sk tk st).1 → r.blogId = blogId)
  ∧ (∀ (bts : List BlogTagRow) (tags : List TagRow) (blogId sk tk : Nat)
        (st : Option String) (r : BlogTagRow × TagRow),
        r ∈ (blogTagGetByBlogId bts tags blogId sk tk st).1 → r.1.blogId = blogId)
  ∧ (∀ (bts : List BlogTagRow) (blogs : List BlogRow) (tagId sk tk : Nat)
        (st : Option String) (r : BlogTagRow × BlogRow),
        r ∈ (blogTagGetByTagId bts blogs tagId sk tk st).1 → r.1.tagId = tagId) := by
  refine ⟨?_, ?_, ?_⟩
  · intro db u blogId sk tk st r hr
    have hnone : ∀ r2 : DraftRow,
        r2 ∈ (draftGetDraftsByBlogId db u blogId sk tk none).1 → r2.blogId = blogId := by
      intro r2 hr2
      simp only [draftGetDraftsByBlogId] at hr2
      have hp := mem_window_filter DraftRow.createdAt _ db sk tk r2 hr2
      simp only [QB.create, QB.andWhere, List.nil_append, List.cons_append,
        List.append_nil, evalWhere, evalWhereAux, Bool.false_or, Bool.and_eq_true,
        beq_iff_eq] at hp
      exact hp.2
    cases st with
    | none => exact hnone r hr
    | some kw =>
      by_cases hkw : kw = ""
      · rw [hkw] at hr
        exact hnone r hr
      · simp only [draftGetDraftsByBlogId, if_neg hkw] at hr
        have hp := mem_window_filter DraftRow.createdAt _ db sk tk r hr
        simp only [QB.create, QB.andWhere, QB.andWhereBrackets, List.nil_append,
          List.cons_append, List.append_nil, evalWhere, evalWhereAux, Bool.false_or,
          Bool.and_eq_true, beq_iff_eq] at hp
        exact hp.1.2
  · intro bts tags blogId sk tk st r hr
    have hnone : ∀ r2 : BlogTagRow × TagRow,
        r2 ∈ (blogTagGetByBlogId bts tags blogId sk tk none).1 → r2.1.blogId = blogId := by
      intro r2 hr2
      simp only [blogTagGetByBlogId] at hr2
      have hp := mem_window_filter (fun x => x.1.createdAt) _ (blogTagJoinTags bts tags)
        sk tk r2 hr2
      simp only [QB.create, QB.andWhere, List.nil_append, evalWhere, evalWhereAux,
        Bool.false_or, beq_iff_eq] at hp
      exact hp
    cases st with
    | none => exact hnone r hr
    | some kw =>
      by_cases hkw : kw = ""
      · rw [hkw] at hr
        exact hnone r hr
      · simp only [blogTagGetByBlogId, if_neg hkw] at hr
        have hp := mem_window_filter (fun x => x.1.createdAt) _ (blogTagJoinTags bts tags)
          sk tk r hr
        simp only [QB.create, QB.andWhere, QB.andWhereBrackets, List.nil_append,
          List.cons_append, List.append_nil, evalWhere, evalWhereAux, Bool.false_or,
          Bool.and_eq_true, beq_iff_eq] at hp
        exact hp.1
  · intro bts blogs tagId sk tk st r hr
    have hnone : ∀ r2 : BlogTagRow × BlogRow,
        r2 ∈ (blogTagGetByTagId bts blogs tagId sk tk none).1 → r2.1.tagId = tagId := by
      intro r2 hr2
      simp only [blogTagGetByTagId] at hr2
      have hp := mem_window_filter (fun x => x.1.createdAt) _ (blogTagJoinBlogs bts blogs)
        sk tk r2 hr2
      simp only [QB.create, QB.andWhere, List.nil_append, evalWhere, evalWhereAux,
        Bool.false_or, beq_iff_eq] at hp
      exact hp
    cases st with
    | none => exact hnone r hr
    | some kw =>
      by_cases hkw : kw = ""
      · rw [hkw] at hr
        exact hnone r hr
      · simp only [blogTagGetByTagId, if_neg hkw] at hr
        have hp := mem_window_filter (fun x => x.1.createdAt) _ (blogTagJoinBlogs bts blogs)
          sk tk r hr
        simp only [QB.create, QB.andWhere, QB.andWhereBrackets, List.nil_append,
          List.cons_append, List.append_nil, evalWhere, evalWhereAux, Bool.false_or,
          Bool.and_eq_true, beq_iff_eq] at hp
        exact hp.1

/-- C9 witness: one draft of user 9 on blog 4, listed by blog id 4 with
a keyword, references blog 4. -/
theorem byParentId_rows_reference_parent_witness :
    (⟨1, "hello", 0, 4, 9⟩ : DraftRow).blogId = 4 :=
  byParentId_rows_reference_parent.1 [⟨1, "hello", 0, 4, 9⟩] 9 4 0 10 (some "he")
    ⟨1, "hello", 0, 4, 9⟩ (by decide)

/-- C8: over any table whose ids are pairwise distinct and whose match
set holds at least 2N rows, page 1 and page 2 of size N (skips 0 and N)
concatenate, in order, to the first 2N rows of the createdAt-descending
ordering of the match set, their id sets are disjoint, and the count
returned beside either page is the full match count, independent of the
window — for the tag list and the blog list alike. -/
theorem list_pagination_pages_disjoint_concat :
    (∀ (db : List TagRow) (N : Nat) (st : Option String),
        (db.map TagRow.id).Nodup →
        2 * N ≤ (db.filter (tagListMatches st)).length →
        (tagGetAll db 0 N st).1 ++ (tagGetAll db N N st).1
            = (sortByCreatedAtDesc TagRow.createdAt
                (db.filter (tagListMatches st))).take (2 * N)
          ∧ List.Disjoint ((tagGetAll db 0 N st).1.map TagRow.id)
              ((tagGetAll db N N st).1.map TagRow.id)
          ∧ (tagGetAll db 0 N st).2 = (db.filter (tagListMatches st)).length
          ∧ (tagGetAll db N N st).2 = (db.filter (tagListMatches st)).length)
  ∧ (∀ (db : List BlogRow) (u N : Nat) (st : Option String),
        (db.map BlogRow.id).Nodup →
        2 * N ≤ (db.filter (blogListMatches u st)).length →
        (blogGetAll db u 0 N st).1 ++ (blogGetAll db u N N st).1
            = (sortByCreatedAtDesc BlogRow.createdAt
                (db.filter (blogListMatches u st))).take (2 * N)
          ∧ List.Disjoint ((blogGetAll db u 0 N st).1.map BlogRow.id)
              ((blogGetAll db u N N st).1.map BlogRow.id)
          ∧ (blogGetAll db u 0 N st).2 = (db.filter (blogListMatches u st)).length
          ∧ (blogGetAll db u N N st).2 = (db.filter (blogListMatches u st)).length) := by
  constructor
  · intro db N st h1 _h2
    have hs := pages_split TagRow.createdAt TagRow.id (tagListMatches st) db N h1
    refine ⟨?_, ?_, rfl, rfl⟩
    · show ((sortByCreatedAtDesc TagRow.createdAt
          (db.filter (tagListMatches st))).drop 0).take N
        ++ ((sortByCreatedAtDesc TagRow.createdAt
          (db.filter (tagListMatches st))).drop N).take N = _
      rw [List.drop_zero]
      exact hs.1
    · show List.Disjoint
        ((((sortByCreatedAtDesc TagRow.createdAt
          (db.filter (tagListMatches st))).drop 0).take N).map TagRow.id)
        ((((sortByCreatedAtDesc TagRow.createdAt
          (db.filter (tagListMatches st))).drop N).take N).map TagRow.id)
      rw [List.drop_zero]
      exact hs.2
  · intro db u N st h1 _h2
    have hs := pages_split BlogRow.createdAt BlogRow.id (blogListMatches u st) db N h1
    refine ⟨?_, ?_, rfl, rfl⟩
    · show ((sortByCreatedAtDesc BlogRow.createdAt
          (db.filter (blogListMatches u st))).drop 0).take N
        ++ ((sortByCreatedAtDesc BlogRow.createdAt
          (db.filter (blogListMatches u st))).drop N).take N = _
      rw [List.drop_zero]
      exact hs.1
    · show List.Disjoint
        ((((sortByCreatedAtDesc BlogRow.createdAt
          (db.filter (blogListMatches u st))).drop 0).take N).map BlogRow.id)
        ((((sortByCreatedAtDesc BlogRow.createdAt
          (db.filter (blogListMatches u st))).drop N).take N).map BlogRow.id)
      rw [List.drop_zero]
      exact hs.2

/-- C8 witness: two tags, pages of size one. -/
theorem list_pagination_pages_disjoint_concat_witness :
    (tagGetAll [⟨1, "a", 0⟩, ⟨2, "b", 1⟩] 0 1 none).1
        ++ (tagGetAll [⟨1, "a", 0⟩, ⟨2, "b", 1⟩] 1 1 none).1
      = (sortByCreatedAtDesc TagRow.createdAt
          (([⟨1, "a", 0⟩, ⟨2, "b", 1⟩] : List TagRow).filter
            (tagListMatches none))).take (2 * 1)
    ∧ List.Disjoint ((tagGetAll [⟨1, "a", 0⟩, ⟨2, "b", 1⟩] 0 1 none).1.map TagRow.id)
        ((tagGetAll [⟨1, "a", 0⟩, ⟨2, "b", 1⟩] 1 1 none).1.map TagRow.id)
    ∧ (tagGetAll [⟨1, "a", 0⟩, ⟨2, "b", 1⟩] 0 1 none).2
        = (([⟨1, "a", 0⟩, ⟨2, "b", 1⟩] : List TagRow).filter (tagListMatches none)).length
    ∧ (tagGetAll [⟨1, "a", 0⟩, ⟨2, "b", 1⟩] 1 1 none).2
        = (([⟨1, "a", 0⟩, ⟨2, "b", 1⟩] : List TagRow).filter
            (tagListMatches none)).length :=
  list_pagination_pages_disjoint_concat.1 [⟨1, "a", 0⟩, ⟨2, "b", 1⟩] 1 none
    (by decide) (by decide)

/-- C3: an update first performs the scoped existence check — whose
failure surfaces as the wrapped not-found error — and on success merges
only the caller-supplied fields into the stored record before saving
it: any field the caller leaves out, including a draft's blog relation,
keeps exactly its prior stored value, and the saved record lands in the
table. -/
theorem update_partial_merge_frame :
    (∀ (db : List BlogRow) (u i : Nat) (dto : UpdateBlogDto) (b : BlogRow),
        blogFindById db u i = some b →
        ∃ db2 r, blogUpdateBlog db u i dto = Except.ok (db2, r)
          ∧ r ∈ db2
          ∧ (dto.title = none → r.title = b.title)
          ∧ (dto.content = none → r.content = b.content)
          ∧ (dto.published = none → r.published = b.published)
          ∧ r.authorId = b.authorId ∧ r.id = b.id ∧ r.createdAt = b.createdAt)
  ∧ (∀ (db : List BlogRow) (u i : Nat) (dto : UpdateBlogDto),
        blogFindById db u i = none →
        blogUpdateBlog db u i dto
          = Except.error (HttpErr.badRequest "BlogEntity not found" none))
  ∧ (∀ (db : List DraftRow) (u i : Nat) (dto : UpdateDraftDto) (d : DraftRow),
        draftFindById db u i = some d →
        ∃ db2 r, draftUpdateDraft db u i dto = Except.ok (db2, r)
          ∧ r ∈ db2
          ∧ (dto.content = none → r.content = d.content)
          ∧ (dto.blogId = none → r.blogId = d.blogId)
          ∧ r.createdById = d.createdById ∧ r.id = d.id ∧ r.createdAt = d.createdAt)
  ∧ (∀ (db : List DraftRow) (u i : Nat) (dto : UpdateDraftDto),
        draftFindById db u i = none →
        draftUpdateDraft db u i dto
          = Except.error (HttpErr.badRequest "DraftEntity not found" none)) := by
  refine ⟨?_, ?_, ?_, ?_⟩
  · intro db u i dto b hfind
    have hok : blogGetBlogById db u i = Except.ok b := by
      simp [blogGetBlogById, blogGetBlogByIdInner, hfind, svcWrap]
    have hmem : b ∈ db := List.mem_of_find?_eq_some hfind
    have hpred := List.find?_some hfind
    simp only [Bool.and_eq_true, beq_iff_eq] at hpred
    refine ⟨saveRow BlogRow.id db (mergeBlog b u dto), mergeBlog b u dto,
      ?_, ?_, ?_, ?_, ?_, ?_, ?_, ?_⟩
    · simp [blogUpdateBlog, hok]
    · unfold saveRow
      apply List.mem_map.mpr
      exact ⟨b, hmem, by simp [mergeBlog]⟩
    · intro ht
      simp [mergeBlog, ht]
    · intro hc
      simp [mergeBlog, hc]
    · intro hp
      simp [mergeBlog, hp]
    · simp [mergeBlog, hpred.2]
    · simp [mergeBlog]
    · simp [mergeBlog]
  · intro db u i dto hfind
    have herr : blogGetBlogById db u i
        = Except.error (HttpErr.badRequest "BlogEntity not found" none) := by
      simp [blogGetBlogById, blogGetBlogByIdInner, hfind, svcWrap,
        ServiceErr.message, ServiceErr.code]
    simp [blogUpdateBlog, herr, catchWrapHttp, HttpErr.message]
  · intro db u i dto d hfind
    have hok : draftGetDraftById db u i = Except.ok d := by
      simp [draftGetDraftById, draftGetDraftByIdInner, hfind, svcWrap]
    have hmem : d ∈ db := List.mem_of_find?_eq_some hfind
    have hpred := List.find?_some hfind
    simp only [Bool.and_eq_true, beq_iff_eq] at hpred
    refine ⟨saveRow DraftRow.id db (mergeDraft d u dto), mergeDraft d u dto,
      ?_, ?_, ?_, ?_, ?_, ?_, ?_⟩
    · simp [draftUpdateDraft, hok]
    · unfold saveRow
      apply List.mem_map.mpr
      exact ⟨d, hmem, by simp [mergeDraft]⟩
    · intro hc
      simp [mergeDraft, hc]
    · intro hb
      simp [mergeDraft, hb]
    · simp [mergeDraft, hpred.2]
    · simp [mergeDraft]
    · simp [mergeDraft]
  · intro db u i dto hfind
    have herr : draftGetDraftById db u i
        = Except.error (HttpErr.badRequest "DraftEntity not found" none) := by
      simp [draftGetDraftById, draftGetDraftByIdInner, hfind, svcWrap,
        ServiceErr.message, ServiceErr.code]
    simp [draftUpdateDraft, herr, catchWrapHttp, HttpErr.message]

/-- C3 witness: updating only the content of a draft (blogId left out)
keeps its blog relation and identity. -/
theorem update_partial_merge_frame_witness :
    ∃ db2 r, draftUpdateDraft [⟨1, "old", 0, 4, 7⟩] 7 1 ⟨none, some "new"⟩
          = Except.ok (db2, r)
        ∧ r ∈ db2
        ∧ ((⟨none, some "new"⟩ : UpdateDraftDto).content = none → r.content = "old")
        ∧ ((⟨none, some "new"⟩ : UpdateDraftDto).blogId = none
            → r.blogId = (⟨1, "old", 0, 4, 7⟩ : DraftRow).blogId)
        ∧ r.createdById = (⟨1, "old", 0, 4, 7⟩ : DraftRow).createdById
        ∧ r.id = (⟨1, "old", 0, 4, 7⟩ : DraftRow).id
        ∧ r.createdAt = (⟨1, "old", 0, 4, 7⟩ : DraftRow).createdAt :=
  update_partial_merge_frame.2.2.1 [⟨1, "old", 0, 4, 7⟩] 7 1 ⟨none, some "new"⟩
    ⟨1, "old", 0, 4, 7⟩ (by decide)
